import Mathlib

/-!
Shallow embedding of `packages/query/src/actions.ts` (pgtyped): the
placeholder desugarer, the simple query executor `runQuery`, the type
probe `getTypeData` and the type resolver `getTypes`, together with the
protocol sequencer (`AsyncQueue`) they drive, modelled as explicit state
passing over a stream of inbound backend messages and a log of events.
-/

namespace PgTyped

/-- JS `\w` character class (ASCII letters, digits, underscore), as used by
the placeholder regex `/:(\w*)/g` in `desugarQuery`. -/
def isWordChar (c : Char) : Bool :=
  c.isAlphanum || c = '_'

/-- The characters of the positional marker `$k` that replaces the `k`-th
placeholder match. -/
def markerChars (k : Nat) : List Char :=
  '$' :: (toString k).data

/-- The scan of `query.replace(/:(\w*)/g, cb)`: left-to-right, each `:`
starts a match that greedily takes the following word characters (a match is
a `:` followed by zero or more word characters, and a `:` is itself never a
word character, so every `:` begins exactly one match).  The `k`-th match
(1-based) is replaced by the marker `$k` and its captured name (possibly
empty) is recorded, in order, without deduplication.  `mode = some acc`
means the scanner is inside match number `k` having collected the name
characters `acc`; `mode = none` means it is searching for the next `:`.
Returns the rewritten character list and the recorded names. -/
def scanStep (k : Nat) (mode : Option (List Char)) : List Char → (List Char × List String)
  | [] =>
    match mode with
    | none => ([], [])
    | some acc => (markerChars k, [String.mk acc])
  | c :: rest =>
    match mode with
    | none =>
      if c = ':' then
        scanStep k (some []) rest
      else
        let r := scanStep k none rest
        (c :: r.1, r.2)
    | some acc =>
      if isWordChar c then
        scanStep k (some (acc ++ [c])) rest
      else if c = ':' then
        let r := scanStep (k + 1) (some []) rest
        (markerChars k ++ r.1, String.mk acc :: r.2)
      else
        let r := scanStep (k + 1) none rest
        (markerChars k ++ c :: r.1, String.mk acc :: r.2)

/-- Descriptor of one result field as decoded from a RowDescription
message. -/
structure FieldDesc where
  name : String
  tableOID : Int
  columnAttrNumber : Int
  typeOID : Int
  typeSize : Int
  typeModifier : Int
  formatCode : Int
deriving DecidableEq, Repr

/-- One described parameter (its type OID), as decoded from a
ParameterDescription message. -/
structure ParamDesc where
  oid : Int
deriving DecidableEq, Repr

/-- Modelled from the spec: the wire codec (`@pg-typed/wire`, not under
`src/`) decodes an error response into fields keyed by the protocol's
single-letter tags ("conventionally short single-letter tags in the raw
protocol, mapped here to named fields").  In the PostgreSQL protocol `S` is
severity, `C` the SQLSTATE error code, `M` the human-readable message (all
three always present), `H` the optional hint, `P` the optional position,
and `R` the reporting source routine (sent by the server in practice). -/
structure ErrorFields where
  S : String
  C : String
  M : String
  H : Option String
  P : Option String
  R : String
deriving DecidableEq, Repr

/-- The kind of prepared object a Describe/Close message targets. -/
inductive PreparedObjectType where
  | statement
  | portal
deriving DecidableEq, Repr

/-- Outbound (frontend -> backend) protocol messages used by `actions.ts`,
plus Bind and Execute, which the wire codec offers but the probe never
sends. -/
inductive FrontendMsg where
  | startupMessage (params : List (String × String))
  | query (q : String)
  | parse (name : String) (query : String) (dataTypes : List Int)
  | describe (type : PreparedObjectType) (name : String)
  | close (target : PreparedObjectType) (targetName : String)
  | flush
  | bind (portal statement : String)
  | execute (portal : String)
deriving DecidableEq, Repr

/-- Inbound (backend -> frontend) protocol messages consumed by
`actions.ts`.  A data row carries the textual value of each column in
column order. -/
inductive BackendMsg where
  | readyForQuery
  | rowDescription (fields : List FieldDesc)
  | dataRow (columns : List String)
  | commandComplete (commandTag : String)
  | errorResponse (fields : ErrorFields)
  | parseComplete
  | parameterDescription (params : List ParamDesc)
  | noData
  | closeComplete
deriving DecidableEq, Repr

/-- Message kinds, used to express the expected set of an await. -/
inductive MsgKind where
  | readyForQuery
  | rowDescription
  | dataRow
  | commandComplete
  | errorResponse
  | parseComplete
  | parameterDescription
  | noData
  | closeComplete
deriving DecidableEq, Repr

/-- The kind of a backend message. -/
def BackendMsg.kind : BackendMsg → MsgKind
  | .readyForQuery => .readyForQuery
  | .rowDescription _ => .rowDescription
  | .dataRow _ => .dataRow
  | .commandComplete _ => .commandComplete
  | .errorResponse _ => .errorResponse
  | .parseComplete => .parseComplete
  | .parameterDescription _ => .parameterDescription
  | .noData => .noData
  | .closeComplete => .closeComplete

/-- Observable events on the sequencer: a message was sent, or an await was
entered with a given expected set. -/
inductive Event where
  | sent (m : FrontendMsg)
  | awaited (expected : List MsgKind)
deriving DecidableEq, Repr

/-- Modelled from the spec: the protocol sequencer (`AsyncQueue` of
`@pg-typed/wire`, not under `src/`).  `incoming` is the stream of inbound
messages the server will deliver, in order; `log` records sends and awaits
for trace reasoning. -/
structure QueueState where
  incoming : List BackendMsg
  log : List Event
deriving DecidableEq, Repr

/-- Outcome of a protocol computation: a value with the new queue state, or
a fatal condition (desync on an unexpected message kind, or a peer that
never delivers) that invalidates the connection. -/
inductive QR (α : Type) where
  | ok (a : α) (s : QueueState)
  | fatal (s : QueueState)
deriving DecidableEq, Repr

/-- Queue state at the end of a protocol computation. -/
def QR.finalState : QR α → QueueState
  | .ok _ s => s
  | .fatal s => s

/-- `queue.send(kind, payload)`: enqueue one outbound message without
awaiting a reply. -/
def send (m : FrontendMsg) (s : QueueState) : QueueState :=
  { s with log := s.log ++ [Event.sent m] }

/-- `queue.reply(kinds...)`: block until the next inbound message; it must
be one of the expected kinds, otherwise the sequencer raises a fatal
desync.  A peer that never delivers is also fatal (the caller blocks
forever). -/
def replyQ (expected : List MsgKind) (s : QueueState) : QR BackendMsg :=
  let log1 := s.log ++ [Event.awaited expected]
  match s.incoming with
  | [] => QR.fatal { incoming := [], log := log1 }
  | m :: rest =>
    if m.kind ∈ expected then
      QR.ok m { incoming := rest, log := log1 }
    else
      QR.fatal { incoming := rest, log := log1 }

/-- `ParseError` from `actions.ts`. -/
structure ParseError where
  errorCode : String
  hint : Option String
  message : String
  position : Option String
deriving DecidableEq, Repr

/-- `TypeData` from `actions.ts`: either the described parameter and field
lists, or a `ParseError`. -/
inductive TypeData where
  | data (params : List ParamDesc) (fields : List FieldDesc)
  | err (e : ParseError)
deriving DecidableEq, Repr

/-- The `'fields' in parseResult` test of `getTypeData` together with the
error construction it guards: an error response (the only expected reply
kind carrying error fields) becomes a `ParseError` built from the decoded
fields `R`, `H`, `M`, `P`; a parse-complete does not. -/
def parseErrorOf : BackendMsg → Option ParseError
  | .errorResponse errorFields =>
    some { errorCode := errorFields.R, hint := errorFields.H,
           message := errorFields.M, position := errorFields.P }
  | _ => none

/-- The `'params' in paramsResult ? paramsResult.params : []` extraction of
`getTypeData`. -/
def paramsOf : BackendMsg → List ParamDesc
  | .parameterDescription ps => ps
  | _ => []

/-- The `'fields' in fieldsResult ? fieldsResult.fields : []` extraction of
`getTypeData`. -/
def fieldsOf : BackendMsg → List FieldDesc
  | .rowDescription fs => fs
  | _ => []

/-- `getTypeData` from `actions.ts`: send Parse, Describe(statement),
Close(statement), Flush, then await the replies; an error response to the
Parse is mapped to a `ParseError` and returned at once. -/
def getTypeData (query name : String) (s : QueueState) : QR TypeData :=
  let s := send (.parse name query []) s
  let s := send (.describe .statement name) s
  let s := send (.close .statement name) s
  let s := send .flush s
  match replyQ [.errorResponse, .parseComplete] s with
  | .fatal s1 => .fatal s1
  | .ok parseResult s1 =>
    match parseErrorOf parseResult with
    | some e => .ok (.err e) s1
    | none =>
      match replyQ [.parameterDescription, .noData] s1 with
      | .fatal s2 => .fatal s2
      | .ok paramsResult s2 =>
        match replyQ [.rowDescription, .noData] s2 with
        | .fatal s3 => .fatal s3
        | .ok fieldsResult s3 =>
          match replyQ [.closeComplete] s3 with
          | .fatal s4 => .fatal s4
          | .ok _ s4 => .ok (.data (paramsOf paramsResult) (fieldsOf fieldsResult)) s4

/-- The reply loop of `runQuery`: await a data row or command-complete;
collect rows until command-complete.  The fuel argument only bounds the
loop for termination: `runQuery` passes one more than the length of the
incoming stream, and since every iteration consumes one inbound message the
fuel can never reach zero before the stream runs dry (which is already
fatal), so the function agrees with the unbounded `while (true)` loop. -/
def runQueryRows (fuel : Nat) (acc : List (List String)) (s : QueueState) :
    QR (List (List String)) :=
  match fuel with
  | 0 => QR.fatal s
  | Nat.succ fuel =>
    match replyQ [.dataRow, .commandComplete] s with
    | .fatal s1 => .fatal s1
    | .ok m s1 =>
      match m with
      | .commandComplete _ => .ok acc s1
      | .dataRow columns => runQueryRows fuel (acc ++ [columns]) s1
      | _ => .fatal s1

/-- `runQuery` from `actions.ts`: send a simple query, await the row
description, then collect data rows until command-complete. -/
def runQuery (query : String) (s : QueueState) : QR (List (List String)) :=
  let s := send (.query query) s
  match replyQ [.rowDescription] s with
  | .fatal s1 => .fatal s1
  | .ok _ s1 => runQueryRows (s1.incoming.length + 1) [] s1

/-- Result of `desugarQuery`: the rewritten query text and the ordered list
of placeholder names found. -/
structure DesugarResult where
  desugaredQuery : String
  paramNames : List String
deriving DecidableEq, Repr

/-- `desugarQuery` from `actions.ts`: replaces all named parameters of the
form `:paramName` with numbered ones `$k`, recording each name. -/
def desugarQuery (query : String) : DesugarResult :=
  let r := scanStep 1 none query.data
  { desugaredQuery := String.mk r.1, paramNames := r.2 }

/-- JS object assignment `obj[k] = v` on an object modelled as an ordered
association list with distinct keys: an existing key keeps its position and
gets the new value, a new key is appended. -/
def objSet [DecidableEq α] (m : List (α × β)) (k : α) (v : β) : List (α × β) :=
  if m.any (fun p => decide (p.1 = k)) then
    m.map (fun p => if p.1 = k then (k, v) else p)
  else
    m ++ [(k, v)]

/-- JS property read `obj[k]`, distinguishing a missing key (`none`) from a
present one. -/
def objGetEntry [DecidableEq α] (m : List (α × β)) (k : α) : Option β :=
  (m.find? (fun p => decide (p.1 = k))).map (fun p => p.2)

/-- JS `k in obj`: whether the key is present at all (even with value
`undefined`). -/
def objHasKey [DecidableEq α] (m : List (α × β)) (k : α) : Bool :=
  m.any (fun p => decide (p.1 = k))

/-- JS property read on an object whose values may themselves be
`undefined` (`none`): a missing key and a stored `undefined` both read as
`undefined`. -/
def jsGet [DecidableEq α] (m : List (α × Option β)) (k : α) : Option β :=
  match objGetEntry m k with
  | some v => v
  | none => none

/-- JS array indexing used as an object key: `names[i]` is `undefined` past
the end of the array, and an `undefined` object key is coerced to the
string `"undefined"`. -/
def jsIndexName (names : List String) (i : Nat) : String :=
  (names.get? i).getD "undefined"

/-- The first column of a catalog row, used as a JS object key (rows come
from `runQuery`, so columns are text; a missing column is `undefined` and
coerces to the key `"undefined"`). -/
def rowKey (row : List String) : String :=
  (row.get? 0).getD "undefined"

/-- The fold building `typeMap` in `getTypes`: over rows of
`select oid, typname from pg_type ...`, keyed by the textual oid, valued by
the type name (a short row stores `undefined`). -/
def buildTypeMap (rows : List (List String)) : List (String × Option String) :=
  rows.foldl (fun acc row => objSet acc (rowKey row) (row.get? 1)) []

/-- The per-attribute record stored in `attrMap`. -/
structure AttrInfo where
  columnName : Option String
  nullable : Bool
deriving DecidableEq, Repr

/-- The record one attribute row is folded into: `columnName` is the
`attname` column, `nullable` is `attnotnull !== 't'` (a missing column is
`undefined`, which also differs from `'t'`). -/
def attrInfoOf (row : List String) : AttrInfo :=
  { columnName := row.get? 1, nullable := decide (row.get? 2 ≠ some "t") }

/-- The fold building `attrMap` in `getTypes`: over rows of the
`pg_attribute` query `(attid, attname, attnotnull)`, keyed by the `attid`
text. -/
def buildAttrMap (rows : List (List String)) : List (String × AttrInfo) :=
  rows.foldl (fun acc row => objSet acc (rowKey row) (attrInfoOf row)) []

/-- `attrMatcher` from `getTypes`: the predicate clause for one field's
(tableOID, columnAttrNumber) pair. -/
def attrMatcher (f : FieldDesc) : String :=
  "(attrelid = " ++ toString f.tableOID ++ " and attnum = " ++
    toString f.columnAttrNumber ++ ")"

/-- `attrSelection` from `getTypes`: the disjunction of clauses over all
fields when the field list is non-empty; otherwise the JS boolean `false`,
which the template literal interpolates as the text `"false"`. -/
def attrSelection (fields : List FieldDesc) : String :=
  if fields.length > 0 then
    String.intercalate " or " (fields.map attrMatcher)
  else
    "false"

/-- The `pg_attribute` catalog query text built by `getTypes`. -/
def attrQuerySQL (fields : List FieldDesc) : String :=
  "select\n      (attrelid || ':' || attnum) as attid, attname, attnotnull\n     from pg_attribute where "
    ++ attrSelection fields ++ ";"

/-- The `pg_type` catalog query text built by `getTypes`. -/
def typeQuerySQL (oids : List Int) : String :=
  "select oid, typname from pg_type where oid in ("
    ++ String.intercalate "," (oids.map toString) ++ ")"

/-- One entry of `returnTypes`: `returnName` and `typeName` are always
written; `columnName` and `nullable` come from the spread of the attribute
map entry and stay unset when that entry is missing. -/
structure ReturnType where
  columnName : Option String
  nullable : Option Bool
  returnName : String
  typeName : Option String
deriving DecidableEq, Repr

/-- The attribute-map key a field is looked up under:
`` `${f.tableOID}:${f.columnAttrNumber}` ``. -/
def fieldAttrKey (f : FieldDesc) : String :=
  toString f.tableOID ++ ":" ++ toString f.columnAttrNumber

/-- One `returnTypes` entry in `getTypes`:
`{...attrMap[key], returnName: f.name, typeName: typeMap[f.typeOID]}`. -/
def mkReturnType (typeMap : List (String × Option String))
    (attrMap : List (String × AttrInfo)) (f : FieldDesc) : ReturnType :=
  match objGetEntry attrMap (fieldAttrKey f) with
  | some a =>
    { columnName := a.columnName, nullable := some a.nullable,
      returnName := f.name, typeName := jsGet typeMap (toString f.typeOID) }
  | none =>
    { columnName := none, nullable := none,
      returnName := f.name, typeName := jsGet typeMap (toString f.typeOID) }

/-- The `params.forEach((param, index) => ...)` loop of `getTypes`:
starting from object `acc` and index `i`, assign
`paramTypes[paramNames[index]] = typeMap[param.oid]` for each parameter. -/
def buildParamTypes (typeMap : List (String × Option String))
    (names : List String) :
    Nat → List ParamDesc → List (String × Option String) →
      List (String × Option String)
  | _, [], acc => acc
  | i, p :: ps, acc =>
    buildParamTypes typeMap names (i + 1) ps
      (objSet acc (jsIndexName names i) (jsGet typeMap (toString p.oid)))

/-- `TQueryTypes` from `actions.ts`. -/
structure TQueryTypes where
  paramTypes : List (String × Option String)
  returnTypes : List ReturnType
deriving DecidableEq, Repr

/-- The value returned by `getTypes`: the resolved types or a
`ParseError`. -/
inductive GetTypesResult where
  | types (t : TQueryTypes)
  | err (e : ParseError)
deriving DecidableEq, Repr

/-- `getTypes` from `actions.ts`: desugar, probe, then resolve type names
and attribute info through the two catalog queries. -/
def getTypes (query name : String) (s : QueueState) : QR GetTypesResult :=
  let d := desugarQuery query
  match getTypeData d.desugaredQuery name s with
  | .fatal s1 => .fatal s1
  | .ok (.err e) s1 => .ok (.err e) s1
  | .ok (.data params fields) s1 =>
    let paramTypeOIDs := params.map (fun p => p.oid)
    let returnTypesOIDs := fields.map (fun f => f.typeOID)
    let usedTypesOIDs := paramTypeOIDs ++ returnTypesOIDs
    match runQuery (typeQuerySQL usedTypesOIDs) s1 with
    | .fatal s2 => .fatal s2
    | .ok typeRows s2 =>
      let typeMap := buildTypeMap typeRows
      match runQuery (attrQuerySQL fields) s2 with
      | .fatal s3 => .fatal s3
      | .ok attributeRows s3 =>
        let attrMap := buildAttrMap attributeRows
        let returnTypes := fields.map (mkReturnType typeMap attrMap)
        let paramTypes := buildParamTypes typeMap d.paramNames 0 params []
        .ok (.types { paramTypes, returnTypes }) s3

/-- The full event pattern of one `getTypeData` exchange: the four eagerly
sent messages, then the four awaits, in order.  Any run of `getTypeData`
produces a prefix of this pattern (at least through the first await). -/
def probePattern (q n : String) : List Event :=
  [Event.sent (.parse n q []),
   Event.sent (.describe .statement n),
   Event.sent (.close .statement n),
   Event.sent .flush,
   Event.awaited [.errorResponse, .parseComplete],
   Event.awaited [.parameterDescription, .noData],
   Event.awaited [.rowDescription, .noData],
   Event.awaited [.closeComplete]]

lemma isWordChar_colon : isWordChar ':' = false := by decide

section ObjLemmas

variable {α β : Type} [DecidableEq α]

lemma objGetEntry_cons (a : α) (b : β) (t : List (α × β)) (k : α) :
    objGetEntry ((a, b) :: t) k = if a = k then some b else objGetEntry t k := by
  by_cases h : a = k <;> simp [objGetEntry, List.find?_cons, h]

lemma objSet_cons (a : α) (b : β) (t : List (α × β)) (k : α) (v : β) :
    objSet ((a, b) :: t) k v =
      if a = k then (k, v) :: t.map (fun p => if p.1 = k then (k, v) else p)
      else (a, b) :: objSet t k v := by
  by_cases h : a = k
  · simp [objSet, h]
  · by_cases h2 : t.any (fun p => decide (p.1 = k)) = true
    · simp [objSet, h, h2]
    · simp [objSet, h, h2]

lemma objGetEntry_map_ne (t : List (α × β)) (k : α) (v : β) (k2 : α) (h : k2 ≠ k) :
    objGetEntry (t.map (fun p => if p.1 = k then (k, v) else p)) k2 =
      objGetEntry t k2 := by
  induction t with
  | nil => rfl
  | cons p t ih =>
    obtain ⟨a, b⟩ := p
    by_cases hak : a = k
    · subst hak
      have hne : ¬ a = k2 := fun hh => h (hh.symm)
      simp [objGetEntry_cons, hne, ih]
    · by_cases hak2 : a = k2
      · subst hak2
        simp [objGetEntry_cons, hak]
      · simp [objGetEntry_cons, hak, hak2, ih]

lemma objGetEntry_objSet (m : List (α × β)) (k : α) (v : β) (k2 : α) :
    objGetEntry (objSet m k v) k2 = if k2 = k then some v else objGetEntry m k2 := by
  induction m with
  | nil =>
    have hset : objSet ([] : List (α × β)) k v = [(k, v)] := rfl
    rw [hset, objGetEntry_cons]
    by_cases h : k2 = k
    · subst h
      simp
    · rw [if_neg (fun hh => h (Eq.symm hh)), if_neg h]
  | cons p t ih =>
    obtain ⟨a, b⟩ := p
    rw [objSet_cons]
    by_cases hak : a = k
    · subst hak
      by_cases hk2 : k2 = a
      · subst hk2
        simp [objGetEntry_cons]
      · rw [if_pos rfl, objGetEntry_cons, if_neg (fun hh => hk2 (Eq.symm hh)),
          objGetEntry_map_ne t a v k2 hk2, if_neg hk2, objGetEntry_cons,
          if_neg (fun hh => hk2 (Eq.symm hh))]
    · rw [if_neg hak, objGetEntry_cons]
      by_cases hak2 : a = k2
      · subst hak2
        rw [if_pos rfl, if_neg hak, objGetEntry_cons, if_pos rfl]
      · rw [if_neg hak2, ih, objGetEntry_cons, if_neg hak2]

lemma objHasKey_iff (m : List (α × β)) (k : α) :
    objHasKey m k = true ↔ ∃ b, objGetEntry m k = some b := by
  induction m with
  | nil => simp [objHasKey, objGetEntry]
  | cons p t ih =>
    obtain ⟨a, b⟩ := p
    by_cases h : a = k
    · simp [objHasKey, objGetEntry_cons, h]
    · simp only [objHasKey, List.any_cons, objGetEntry_cons, if_neg h]
      simpa [objHasKey, h] using ih

lemma objHasKey_objSet (m : List (α × β)) (k : α) (v : β) (k2 : α) :
    objHasKey (objSet m k v) k2 = true ↔ k2 = k ∨ objHasKey m k2 = true := by
  rw [objHasKey_iff, objHasKey_iff, objGetEntry_objSet]
  by_cases h : k2 = k <;> simp [h]

end ObjLemmas

lemma send_log (m : FrontendMsg) (s : QueueState) :
    (send m s).log = s.log ++ [Event.sent m] := rfl

lemma replyQ_final_log (exp : List MsgKind) (s : QueueState) :
    (replyQ exp s).finalState.log = s.log ++ [Event.awaited exp] := by
  rcases s with ⟨inc, log0⟩
  cases inc with
  | nil => rfl
  | cons m rest =>
    by_cases h : m.kind ∈ exp <;> simp [replyQ, QR.finalState, h]

lemma replyQ_fatal_state {exp : List MsgKind} {s s1 : QueueState}
    (h : replyQ exp s = QR.fatal s1) : s1.log = s.log ++ [Event.awaited exp] := by
  have := replyQ_final_log exp s
  rw [h] at this
  exact this

lemma replyQ_ok_state {exp : List MsgKind} {s s1 : QueueState} {m : BackendMsg}
    (h : replyQ exp s = QR.ok m s1) : s1.log = s.log ++ [Event.awaited exp] := by
  have := replyQ_final_log exp s
  rw [h] at this
  exact this

/-- Any run of `getTypeData` extends the log by a prefix of `probePattern`
of length between 5 (the four sends plus the first await, which always
happen) and 8 (the full success path). -/
lemma getTypeData_log (q n : String) (s : QueueState) :
    ∃ k, 5 ≤ k ∧ k ≤ 8 ∧
      (getTypeData q n s).finalState.log = s.log ++ (probePattern q n).take k := by
  have ht5 : (probePattern q n).take 5 =
    [Event.sent (.parse n q []), Event.sent (.describe .statement n),
     Event.sent (.close .statement n), Event.sent .flush,
     Event.awaited [.errorResponse, .parseComplete]] := rfl
  have ht6 : (probePattern q n).take 6 =
    [Event.sent (.parse n q []), Event.sent (.describe .statement n),
     Event.sent (.close .statement n), Event.sent .flush,
     Event.awaited [.errorResponse, .parseComplete],
     Event.awaited [.parameterDescription, .noData]] := rfl
  have ht7 : (probePattern q n).take 7 =
    [Event.sent (.parse n q []), Event.sent (.describe .statement n),
     Event.sent (.close .statement n), Event.sent .flush,
     Event.awaited [.errorResponse, .parseComplete],
     Event.awaited [.parameterDescription, .noData],
     Event.awaited [.rowDescription, .noData]] := rfl
  have ht8 : (probePattern q n).take 8 = probePattern q n := rfl
  simp only [getTypeData]
  set sA := send FrontendMsg.flush
      (send (FrontendMsg.close PreparedObjectType.statement n)
        (send (FrontendMsg.describe PreparedObjectType.statement n)
          (send (FrontendMsg.parse n q []) s))) with hsA
  have hlogA : sA.log = s.log ++
      [Event.sent (.parse n q []), Event.sent (.describe .statement n),
       Event.sent (.close .statement n), Event.sent .flush] := by
    rw [hsA]
    simp [send_log]
  cases h1 : replyQ [.errorResponse, .parseComplete] sA with
  | fatal s1 =>
    refine ⟨5, by omega, by omega, ?_⟩
    have := replyQ_fatal_state h1
    simp [QR.finalState, this, hlogA, ht5]
  | ok m1 s1 =>
    have hlog1 : s1.log = s.log ++
        [Event.sent (.parse n q []), Event.sent (.describe .statement n),
         Event.sent (.close .statement n), Event.sent .flush,
         Event.awaited [.errorResponse, .parseComplete]] := by
      rw [replyQ_ok_state h1, hlogA]
      simp
    cases hpe : parseErrorOf m1 with
    | some e =>
      refine ⟨5, by omega, by omega, ?_⟩
      simp [QR.finalState, hpe, hlog1, ht5]
    | none =>
      simp only [hpe]
      cases h2 : replyQ [.parameterDescription, .noData] s1 with
      | fatal s2 =>
        refine ⟨6, by omega, by omega, ?_⟩
        have := replyQ_fatal_state h2
        simp [QR.finalState, h2, this, hlog1, ht6]
      | ok m2 s2 =>
        have hlog2 : s2.log = s.log ++
            [Event.sent (.parse n q []), Event.sent (.describe .statement n),
             Event.sent (.close .statement n), Event.sent .flush,
             Event.awaited [.errorResponse, .parseComplete],
             Event.awaited [.parameterDescription, .noData]] := by
          rw [replyQ_ok_state h2, hlog1]
          simp
        cases h3 : replyQ [.rowDescription, .noData] s2 with
        | fatal s3 =>
          refine ⟨7, by omega, by omega, ?_⟩
          have := replyQ_fatal_state h3
          simp [QR.finalState, h3, this, hlog2, ht7]
        | ok m3 s3 =>
          have hlog3 : s3.log = s.log ++
              [Event.sent (.parse n q []), Event.sent (.describe .statement n),
               Event.sent (.close .statement n), Event.sent .flush,
               Event.awaited [.errorResponse, .parseComplete],
               Event.awaited [.parameterDescription, .noData],
               Event.awaited [.rowDescription, .noData]] := by
            rw [replyQ_ok_state h3, hlog2]
            simp
          cases h4 : replyQ [.closeComplete] s3 with
          | fatal s4 =>
            refine ⟨8, by omega, by omega, ?_⟩
            have := replyQ_fatal_state h4
            simp [QR.finalState, h3, h4, this, hlog3, ht8, probePattern]
          | ok m4 s4 =>
            refine ⟨8, by omega, by omega, ?_⟩
            have := replyQ_ok_state h4
            simp [QR.finalState, h3, h4, this, hlog3, ht8, probePattern]

/-- C1 counterexample: with a single field whose table reference is zero
(an expression column), no field carries a non-zero table reference, yet
the attribute-lookup predicate built by `getTypes` is the clause
`(attrelid = 0 and attnum = 0)` for that field, not the special-cased
always-false predicate the claim requires in this situation. -/
theorem attrSelection_zero_ref_counterexample :
    attrSelection [{ name := "?column?", tableOID := 0, columnAttrNumber := 0,
                     typeOID := 23, typeSize := 4, typeModifier := -1,
                     formatCode := 0 }] =
      "(attrelid = 0 and attnum = 0)" ∧
    ("(attrelid = 0 and attnum = 0)" : String) ≠ "false" := by
  exact ⟨rfl, by decide⟩

/-- C1 (amended): the attribute-lookup predicate is a disjunction of
`(attrelid = tableOID and attnum = columnAttrNumber)` clauses built for
every field of the row description, whether or not its table reference is
zero; only when the field list is empty does the implementation
special-case the predicate to the literal text `false`, so that it issues a
well-formed catalog query rather than a malformed one. -/
theorem attrQuerySQL_clauses_for_all_fields (fields : List FieldDesc) :
    attrQuerySQL fields =
      "select\n      (attrelid || ':' || attnum) as attid, attname, attnotnull\n     from pg_attribute where "
        ++ (if fields.isEmpty then "false"
            else String.intercalate " or " (fields.map attrMatcher)) ++ ";" := by
  cases fields with
  | nil => rfl
  | cons f fs => simp [attrQuerySQL, attrSelection]

/-- C2: when the probe's first awaited reply is an error response,
`getTypeData` returns immediately (the log ends at the first await and no
further inbound message is consumed), but the `errorCode` of the returned
`ParseError` is taken from the server's routine field `R`
(`"scanner_yyerror"`), not from the SQLSTATE code field `C` (`"42601"`) as
the claim states; `hint`, `message` and `position` do come from `H`, `M`
and `P`. -/
theorem getTypeData_errorCode_from_routine :
    getTypeData "SELEC 1" "q"
        { incoming := [BackendMsg.errorResponse
                          { S := "ERROR", C := "42601", M := "bad", H := none,
                            P := some "1", R := "scanner_yyerror" }],
          log := [] } =
      QR.ok (TypeData.err { errorCode := "scanner_yyerror", hint := none,
                            message := "bad", position := some "1" })
        { incoming := [],
          log := [Event.sent (.parse "q" "SELEC 1" []),
                  Event.sent (.describe .statement "q"),
                  Event.sent (.close .statement "q"),
                  Event.sent .flush,
                  Event.awaited [.errorResponse, .parseComplete]] } ∧
    ("scanner_yyerror" : String) ≠ "42601" := by
  exact ⟨rfl, by decide⟩

/-- C3: for every query text, statement name and queue state, `getTypeData`
extends the event log by a prefix (of length at least 5) of the probe
pattern: the four sends Parse, Describe(statement), Close(statement), Flush
in that order before any await, then the awaits
error-response-or-parse-complete, parameter-description-or-no-data,
row-description-or-no-data, close-complete in that order; and the pattern
contains no Bind and no Execute send, so the query is never executed. -/
theorem getTypeData_message_order (q n : String) (s : QueueState) :
    (∃ k, 5 ≤ k ∧ k ≤ 8 ∧
      (getTypeData q n s).finalState.log = s.log ++ (probePattern q n).take k) ∧
    (∀ p st, Event.sent (FrontendMsg.bind p st) ∉ probePattern q n) ∧
    (∀ p, Event.sent (FrontendMsg.execute p) ∉ probePattern q n) := by
  refine ⟨getTypeData_log q n s, ?_, ?_⟩
  · intro p st
    simp [probePattern]
  · intro p
    simp [probePattern]

/-- C4: if the probe phase of `getTypes` yields a `ParseError`, `getTypes`
returns that same `ParseError` unchanged in the same state, and no catalog
query was sent during the whole call (no simple-query message appears among
the new log events), so no partial `TypeData` is ever combined with the
error. -/
theorem getTypes_propagates_parseError (q n : String) (s s1 : QueueState)
    (e : ParseError)
    (h : getTypeData (desugarQuery q).desugaredQuery n s =
      QR.ok (TypeData.err e) s1) :
    getTypes q n s = QR.ok (GetTypesResult.err e) s1 ∧
      ∀ qq : String, Event.sent (FrontendMsg.query qq) ∉ s1.log.drop s.log.length := by
  constructor
  · simp [getTypes, h]
  · intro qq hmem
    obtain ⟨k, -, -, hlog⟩ :=
      getTypeData_log (desugarQuery q).desugaredQuery n s
    rw [h] at hlog
    simp only [QR.finalState] at hlog
    rw [hlog, List.drop_left] at hmem
    have hP := List.take_subset k (probePattern (desugarQuery q).desugaredQuery n) hmem
    simp [probePattern] at hP

/-- Witness for C4: a probe that fails with a syntax error makes `getTypes`
return exactly that `ParseError`, with no catalog query ever sent. -/
theorem getTypes_propagates_parseError_witness :
    getTypes "SELECT * FROM users WHERE id = :id" "q"
        { incoming := [BackendMsg.errorResponse
                          { S := "ERROR", C := "42601", M := "syntax error",
                            H := none, P := some "1",
                            R := "scanner_yyerror" }],
          log := [] } =
      QR.ok (GetTypesResult.err { errorCode := "scanner_yyerror",
                                  hint := none, message := "syntax error",
                                  position := some "1" })
        { incoming := [],
          log := [Event.sent (.parse "q" "SELECT * FROM users WHERE id = $1" []),
                  Event.sent (.describe .statement "q"),
                  Event.sent (.close .statement "q"),
                  Event.sent .flush,
                  Event.awaited [.errorResponse, .parseComplete]] } :=
  (getTypes_propagates_parseError "SELECT * FROM users WHERE id = :id" "q"
    { incoming := [BackendMsg.errorResponse
                      { S := "ERROR", C := "42601", M := "syntax error",
                        H := none, P := some "1", R := "scanner_yyerror" }],
      log := [] }
    { incoming := [],
      log := [Event.sent (.parse "q" "SELECT * FROM users WHERE id = $1" []),
              Event.sent (.describe .statement "q"),
              Event.sent (.close .statement "q"),
              Event.sent .flush,
              Event.awaited [.errorResponse, .parseComplete]] }
    { errorCode := "scanner_yyerror", hint := none,
      message := "syntax error", position := some "1" }
    rfl).1

/-- Every colon begins exactly one match of `:(\w*)` (a colon is not a word
character, so it cannot lie inside a match except as its first character):
the scanner records one name per colon, plus one for a match still open. -/
lemma scanStep_names_length (cs : List Char) : ∀ (k : Nat) (mode : Option (List Char)),
    (scanStep k mode cs).2.length =
      cs.count ':' + (match mode with | none => 0 | some _ => 1) := by
  induction cs with
  | nil =>
    intro k mode
    cases mode <;> simp [scanStep]
  | cons c rest ih =>
    intro k mode
    cases mode with
    | none =>
      by_cases h : c = ':'
      · subst h
        simp [scanStep, ih, List.count_cons]
      · simp [scanStep, h, ih, List.count_cons]
    | some acc =>
      by_cases hw : isWordChar c = true
      · have hc : ¬ c = ':' := by
          intro h
          rw [h, isWordChar_colon] at hw
          exact Bool.false_ne_true hw
        simp [scanStep, hw, hc, ih, List.count_cons]
      · by_cases h : c = ':'
        · subst h
          simp [scanStep, isWordChar_colon, ih, List.count_cons]
        · simp [scanStep, hw, h, ih, List.count_cons]

/-- C5: `desugarQuery` scans left to right for a colon followed by zero or
more identifier characters, replaces the k-th match with `$k` and appends
each matched name (possibly empty) to an ordered list without
deduplication; `desugarQuery ":a, :b, :a"` yields `"$1, $2, $3"` with names
`["a","b","a"]`, and the number of positional markers introduced (one per
match; every match starts at a colon and every colon starts exactly one
match) equals the length of the returned name list. -/
theorem desugarQuery_markers_eq_names :
    desugarQuery ":a, :b, :a" =
      { desugaredQuery := "$1, $2, $3", paramNames := ["a", "b", "a"] } ∧
    ∀ q : String, (desugarQuery q).paramNames.length = q.data.count ':' := by
  constructor
  · rfl
  · intro q
    simp [desugarQuery, scanStep_names_length]

lemma buildParamTypes_cons (tm : List (String × Option String))
    (names : List String) (i : Nat) (p : ParamDesc) (ps : List ParamDesc)
    (acc : List (String × Option String)) :
    buildParamTypes tm names i (p :: ps) acc =
      buildParamTypes tm names (i + 1) ps
        (objSet acc (jsIndexName names i) (jsGet tm (toString p.oid))) := rfl

/-- Indices of `ps` that never assign the key `k` leave its entry in the
accumulator object untouched. -/
lemma buildParamTypes_no_write (tm : List (String × Option String))
    (names : List String) :
    ∀ (ps : List ParamDesc) (i0 : Nat) (acc : List (String × Option String))
      (k : String),
      (∀ j, j < ps.length → jsIndexName names (i0 + j) ≠ k) →
      objGetEntry (buildParamTypes tm names i0 ps acc) k = objGetEntry acc k := by
  intro ps
  induction ps with
  | nil =>
    intro i0 acc k _
    rfl
  | cons p ps ih =>
    intro i0 acc k h
    have hrest : ∀ j, j < ps.length → jsIndexName names ((i0 + 1) + j) ≠ k := by
      intro j hj
      have hh := h (j + 1) (by simpa using Nat.succ_lt_succ hj)
      rw [show i0 + (j + 1) = (i0 + 1) + j by omega] at hh
      exact hh
    have h0 : jsIndexName names i0 ≠ k := by
      have hh := h 0 (by simp)
      simpa using hh
    rw [buildParamTypes_cons, ih (i0 + 1) _ k hrest, objGetEntry_objSet,
      if_neg (fun hk => h0 hk.symm)]

/-- After the whole parameter loop, the entry stored under `k` is the one
written at the last index whose key is `k`. -/
lemma buildParamTypes_last_write (tm : List (String × Option String))
    (names : List String) :
    ∀ (ps : List ParamDesc) (i : Nat) (hi : i < ps.length) (i0 : Nat)
      (acc : List (String × Option String)) (k : String),
      jsIndexName names (i0 + i) = k →
      (∀ j, i < j → j < ps.length → jsIndexName names (i0 + j) ≠ k) →
      objGetEntry (buildParamTypes tm names i0 ps acc) k =
        some (jsGet tm (toString (ps.get ⟨i, hi⟩).oid)) := by
  intro ps
  induction ps with
  | nil =>
    intro i hi
    exact absurd hi (by simp)
  | cons p ps ih =>
    intro i hi i0 acc k hk hlater
    cases i with
    | zero =>
      have hnowrite : ∀ j, j < ps.length → jsIndexName names ((i0 + 1) + j) ≠ k := by
        intro j hj
        have hh := hlater (j + 1) (Nat.succ_pos j)
          (by simpa using Nat.succ_lt_succ hj)
        rw [show i0 + (j + 1) = (i0 + 1) + j by omega] at hh
        exact hh
      have hk0 : k = jsIndexName names i0 := by
        have hh : jsIndexName names i0 = k := by simpa using hk
        exact hh.symm
      rw [buildParamTypes_cons,
        buildParamTypes_no_write tm names ps (i0 + 1) _ k hnowrite,
        objGetEntry_objSet, if_pos hk0]
      simp
    | succ i2 =>
      have hi2 : i2 < ps.length := Nat.lt_of_succ_lt_succ hi
      have hk2 : jsIndexName names ((i0 + 1) + i2) = k := by
        rw [show (i0 + 1) + i2 = i0 + (i2 + 1) by omega]
        exact hk
      have hl2 : ∀ j, i2 < j → j < ps.length → jsIndexName names ((i0 + 1) + j) ≠ k := by
        intro j h1 h2
        have hh := hlater (j + 1) (Nat.succ_lt_succ h1) (by simpa using Nat.succ_lt_succ h2)
        rw [show i0 + (j + 1) = (i0 + 1) + j by omega] at hh
        exact hh
      rw [buildParamTypes_cons, ih i2 hi2 (i0 + 1) _ k hk2 hl2]
      simp

/-- C6: `getTypes` builds `paramTypes` by writing, for each parameter index
`i`, the entry `paramNames[i] -> typeMap[params[i].oid]`; if `i` is the
last index whose recorded name is `k`, the entry finally stored under `k`
is the type looked up for the `i`-th parameter OID — i.e. a repeated name
is overwritten by its later occurrence (last-write-wins). -/
theorem buildParamTypes_last_write_wins (tm : List (String × Option String))
    (names : List String) (params : List ParamDesc) (k : String) (i : Nat)
    (hi : i < params.length) (hk : jsIndexName names i = k)
    (hlast : ∀ j, i < j → j < params.length → jsIndexName names j ≠ k) :
    objGetEntry (buildParamTypes tm names 0 params []) k =
      some (jsGet tm (toString (params.get ⟨i, hi⟩).oid)) := by
  apply buildParamTypes_last_write tm names params i hi 0 [] k
  · simpa using hk
  · intro j h1 h2
    simpa using hlast j h1 h2

/-- Witness for C6: with recorded names `["a","b","a"]` and three parameter
OIDs 23, 25, 16, the entry for `"a"` holds the type of the third parameter
(`bool`), the later occurrence having overwritten the earlier one. -/
theorem buildParamTypes_last_write_wins_witness :
    objGetEntry (buildParamTypes
        (buildTypeMap [["23", "int4"], ["25", "text"], ["16", "bool"]])
        ["a", "b", "a"] 0 [⟨23⟩, ⟨25⟩, ⟨16⟩] []) "a" = some (some "bool") := by
  have h := buildParamTypes_last_write_wins
    (buildTypeMap [["23", "int4"], ["25", "text"], ["16", "bool"]])
    ["a", "b", "a"] [⟨23⟩, ⟨25⟩, ⟨16⟩] "a" 2 (by decide) (by decide)
    (by intro j h1 h2; simp at h2; omega)
  rw [h]
  decide

/-- Every entry of the attribute map comes from some row of the catalog
result (the fold starting from `acc`). -/
lemma buildAttrMap_provenance :
    ∀ (rows : List (List String)) (acc : List (String × AttrInfo))
      (attid : String) (e : AttrInfo),
      objGetEntry
        (List.foldl (fun a row => objSet a (rowKey row) (attrInfoOf row)) acc rows)
        attid = some e →
      objGetEntry acc attid = some e ∨
        ∃ row, row ∈ rows ∧ rowKey row = attid ∧ e = attrInfoOf row := by
  intro rows
  induction rows with
  | nil =>
    intro acc attid e h
    exact Or.inl h
  | cons r rows ih =>
    intro acc attid e h
    rw [List.foldl_cons] at h
    rcases ih _ attid e h with hl | ⟨row, hmem, hkey, hval⟩
    · rw [objGetEntry_objSet] at hl
      by_cases hk : attid = rowKey r
      · rw [if_pos hk] at hl
        exact Or.inr ⟨r, by simp, hk.symm, (Option.some.inj hl).symm⟩
      · rw [if_neg hk] at hl
        exact Or.inl hl
    · exact Or.inr ⟨row, by simp [hmem], hkey, hval⟩

/-- C7: every entry of the attribute map built by `getTypes` is derived
from some catalog row (never defaulted); its `columnName` is the row's
`attname` column and its `nullable` flag is true exactly when the row's
textual `attnotnull` value is not the literal true marker `"t"`. -/
theorem buildAttrMap_nullable_iff (rows : List (List String)) (attid : String)
    (e : AttrInfo) (h : objGetEntry (buildAttrMap rows) attid = some e) :
    ∃ row, row ∈ rows ∧ rowKey row = attid ∧ e.columnName = row.get? 1 ∧
      (e.nullable = true ↔ row.get? 2 ≠ some "t") := by
  rcases buildAttrMap_provenance rows [] attid e h with hl | ⟨row, hmem, hkey, hval⟩
  · exact absurd hl (by simp [objGetEntry])
  · refine ⟨row, hmem, hkey, ?_, ?_⟩
    · rw [hval]
      rfl
    · rw [hval]
      simp [attrInfoOf]

/-- Witness for C7: the row `("1:1", "id", "t")` yields the entry
`columnName = "id"`, `nullable = false` — the literal `"t"` marker is the
only value that makes the column non-nullable. -/
theorem buildAttrMap_nullable_iff_witness :
    ∃ row, row ∈ [["1:1", "id", "t"]] ∧ rowKey row = "1:1" ∧
      ({ columnName := some "id", nullable := false } : AttrInfo).columnName =
        row.get? 1 ∧
      (({ columnName := some "id", nullable := false } : AttrInfo).nullable = true ↔
        row.get? 2 ≠ some "t") :=
  buildAttrMap_nullable_iff [["1:1", "id", "t"]] "1:1"
    { columnName := some "id", nullable := false } (by decide)

/-- C8: a field whose `(tableOID, columnAttrNumber)` key has no entry in
the attribute map (e.g. an expression column) still yields a `returnTypes`
entry carrying `returnName` and `typeName`, with `columnName` and
`nullable` unset; and a full `getTypes` run over such a field succeeds,
returning that entry rather than failing. -/
theorem mkReturnType_missing_attr :
    (∀ (tm : List (String × Option String)) (am : List (String × AttrInfo))
      (f : FieldDesc),
      objGetEntry am (fieldAttrKey f) = none →
      mkReturnType tm am f =
        { columnName := none, nullable := none, returnName := f.name,
          typeName := jsGet tm (toString f.typeOID) }) ∧
    (∃ s1, getTypes "SELECT 1" "q"
        { incoming :=
            [BackendMsg.parseComplete, BackendMsg.noData,
             BackendMsg.rowDescription
               [{ name := "?column?", tableOID := 0, columnAttrNumber := 0,
                  typeOID := 23, typeSize := 4, typeModifier := -1,
                  formatCode := 0 }],
             BackendMsg.closeComplete,
             BackendMsg.rowDescription [], BackendMsg.dataRow ["23", "int4"],
             BackendMsg.commandComplete "SELECT 1",
             BackendMsg.rowDescription [], BackendMsg.commandComplete "SELECT 0"],
          log := [] } =
      QR.ok (GetTypesResult.types
        { paramTypes := [],
          returnTypes := [{ columnName := none, nullable := none,
                            returnName := "?column?",
                            typeName := some "int4" }] }) s1) := by
  constructor
  · intro tm am f h
    simp [mkReturnType, h]
  · exact ⟨_, rfl⟩

/-- Witness for C8: an expression field looked up in an empty attribute map
still produces an entry with `returnName` and `typeName` set. -/
theorem mkReturnType_missing_attr_witness :
    mkReturnType (buildTypeMap [["23", "int4"]]) []
      { name := "?column?", tableOID := 0, columnAttrNumber := 0, typeOID := 23,
        typeSize := 4, typeModifier := -1, formatCode := 0 } =
      { columnName := none, nullable := none, returnName := "?column?",
        typeName := some "int4" } :=
  mkReturnType_missing_attr.1 (buildTypeMap [["23", "int4"]]) []
    { name := "?column?", tableOID := 0, columnAttrNumber := 0, typeOID := 23,
      typeSize := 4, typeModifier := -1, formatCode := 0 } rfl

/-- The reply loop of `runQuery` collects exactly the data-row payloads, in
order, and stops at the command-complete. -/
lemma runQueryRows_collect :
    ∀ (rows : List (List String)) (acc : List (List String)) (s : QueueState)
      (tag : String) (rest : List BackendMsg) (fuel : Nat),
      s.incoming = rows.map BackendMsg.dataRow ++
        (BackendMsg.commandComplete tag :: rest) →
      rows.length + 1 ≤ fuel →
      ∃ s1, runQueryRows fuel acc s = QR.ok (acc ++ rows) s1 ∧
        s1.incoming = rest := by
  intro rows
  induction rows with
  | nil =>
    intro acc s tag rest fuel hin hfuel
    cases fuel with
    | zero => omega
    | succ f =>
      refine ⟨⟨rest, s.log ++ [Event.awaited [.dataRow, .commandComplete]]⟩, ?_, rfl⟩
      simp only [List.map_nil, List.nil_append] at hin
      simp [runQueryRows, replyQ, hin, BackendMsg.kind]
  | cons r rows ih =>
    intro acc s tag rest fuel hin hfuel
    cases fuel with
    | zero => omega
    | succ f =>
      have hstep : runQueryRows (f + 1) acc s =
          runQueryRows f (acc ++ [r])
            ⟨rows.map BackendMsg.dataRow ++ (BackendMsg.commandComplete tag :: rest),
             s.log ++ [Event.awaited [.dataRow, .commandComplete]]⟩ := by
        simp [runQueryRows, replyQ, hin, BackendMsg.kind]
      rw [hstep]
      obtain ⟨s1, hrun, hinc⟩ :=
        ih (acc ++ [r])
          ⟨rows.map BackendMsg.dataRow ++ (BackendMsg.commandComplete tag :: rest),
           s.log ++ [Event.awaited [.dataRow, .commandComplete]]⟩
          tag rest f rfl (by simp at hfuel ⊢; omega)
      exact ⟨s1, by simpa using hrun, hinc⟩

/-- C9: `runQuery` returns the received rows as an ordered sequence — each
row the ordered list of its columns' textual values — and when the first
reply after the row description is command-complete (zero matching rows) it
returns the empty sequence rather than an error. -/
theorem runQuery_collects_rows (q : String) (desc : List FieldDesc)
    (rows : List (List String)) (tag : String) (rest : List BackendMsg)
    (s : QueueState)
    (h : s.incoming = BackendMsg.rowDescription desc ::
      (rows.map BackendMsg.dataRow ++ (BackendMsg.commandComplete tag :: rest))) :
    ∃ s1, runQuery q s = QR.ok rows s1 ∧ s1.incoming = rest := by
  have h1 : replyQ [.rowDescription] (send (.query q) s) =
      QR.ok (BackendMsg.rowDescription desc)
        ⟨rows.map BackendMsg.dataRow ++ (BackendMsg.commandComplete tag :: rest),
         (s.log ++ [Event.sent (.query q)]) ++ [Event.awaited [.rowDescription]]⟩ := by
    simp [replyQ, send, h, BackendMsg.kind]
  obtain ⟨s1, hrun, hinc⟩ := runQueryRows_collect rows []
    ⟨rows.map BackendMsg.dataRow ++ (BackendMsg.commandComplete tag :: rest),
     (s.log ++ [Event.sent (.query q)]) ++ [Event.awaited [.rowDescription]]⟩
    tag rest
    ((rows.map BackendMsg.dataRow ++ (BackendMsg.commandComplete tag :: rest)).length + 1)
    rfl (by simp)
  refine ⟨s1, ?_, hinc⟩
  simp only [runQuery, h1]
  simpa using hrun

/-- Witness for C9: a reply stream with a row description immediately
followed by command-complete yields the empty row sequence. -/
theorem runQuery_collects_rows_witness :
    ∃ s1, runQuery "SELECT 1 WHERE false"
        { incoming := [BackendMsg.rowDescription [],
                       BackendMsg.commandComplete "SELECT 0"], log := [] } =
      QR.ok ([] : List (List String)) s1 ∧ s1.incoming = [] :=
  runQuery_collects_rows "SELECT 1 WHERE false" [] [] "SELECT 0" []
    { incoming := [BackendMsg.rowDescription [],
                   BackendMsg.commandComplete "SELECT 0"], log := [] } rfl

lemma buildParamTypes_keys_aux (tm : List (String × Option String))
    (names : List String) :
    ∀ (ps : List ParamDesc) (i0 : Nat) (acc : List (String × Option String))
      (k : String),
      objHasKey (buildParamTypes tm names i0 ps acc) k = true ↔
        (∃ i, i < ps.length ∧ jsIndexName names (i0 + i) = k) ∨
          objHasKey acc k = true := by
  intro ps
  induction ps with
  | nil =>
    intro i0 acc k
    simp [buildParamTypes]
  | cons p ps ih =>
    intro i0 acc k
    rw [buildParamTypes_cons, ih, objHasKey_objSet]
    constructor
    · rintro (⟨i, hi, hk⟩ | hk | hacc)
      · refine Or.inl ⟨i + 1, by simpa using Nat.succ_lt_succ hi, ?_⟩
        rw [show i0 + (i + 1) = (i0 + 1) + i by omega]
        exact hk
      · refine Or.inl ⟨0, by simp, ?_⟩
        simpa using hk.symm
      · exact Or.inr hacc
    · rintro (⟨i, hi, hk⟩ | hacc)
      · cases i with
        | zero => exact Or.inr (Or.inl (by simpa using hk.symm))
        | succ i2 =>
          refine Or.inl ⟨i2, Nat.lt_of_succ_lt_succ (by simpa using hi), ?_⟩
          rw [show (i0 + 1) + i2 = i0 + (i2 + 1) by omega]
          exact hk
      · exact Or.inr (Or.inr hacc)

/-- C10: `paramTypes` is keyed by the server-reported parameter list, not
the recorded name list: the key `k` is present exactly when some parameter
index `i` (over `params`, not over `paramNames`) maps to it.  With `n`
parameters and `m` recorded names, exactly the first `n` names receive
entries; for `n < m` the trailing names are absent, and for `n > m` the
surplus parameters are keyed by the JS `undefined` name (coerced to the key
`"undefined"` by `jsIndexName`) instead of being rejected. -/
theorem buildParamTypes_keys (tm : List (String × Option String))
    (names : List String) (params : List ParamDesc) (k : String) :
    objHasKey (buildParamTypes tm names 0 params []) k = true ↔
      ∃ i, i < params.length ∧ jsIndexName names i = k := by
  rw [buildParamTypes_keys_aux]
  simp [objHasKey]

end PgTyped
